import Mathlib

/-!
Shallow embedding of the Process/Window Matcher of `src/main.py` and its thin
API wrappers in `src/api/`.  Python strings are embedded as `List Char`
(`PyStr`), Python `str.lower` as a character-wise ASCII lowering, and the two
concrete regular expressions of the version extractors as specialised
left-to-right scanners.  The ambient effects the script reads (the OS process
table, the output of the external `wmctrl` tool, the filesystem) are made
explicit in a `World` record, matching the failure modes the Python code
catches: a process can vanish or deny access, `wmctrl` can be absent or exit
nonzero, a file can be absent or fail to read.
-/

namespace Tweeks

/-- Embedded Python string: a list of characters. -/
abbrev PyStr := List Char

/-- Literal helper turning a Lean string literal into an embedded string. -/
def pstr (s : String) : PyStr := s.data

/-- Python `str.lower` (character-wise; adequate for the ASCII data used here). -/
def pyLower (s : PyStr) : PyStr := s.map Char.toLower

/-- Does `pat` occur at the start of `s`?  Embeds `s.startswith(pat)`. -/
def leadsWith : PyStr → PyStr → Bool
  | _, [] => true
  | [], _ :: _ => false
  | c :: s, d :: p => c == d && leadsWith s p

/-- Does `pat` occur somewhere inside `s`?  Embeds the Python `pat in s` test. -/
def isSubstr (pat : PyStr) : PyStr → Bool
  | [] => pat.isEmpty
  | c :: t => leadsWith (c :: t) pat || isSubstr pat t

/-- Does `s` end with `pat`?  Embeds `s.endswith(pat)`. -/
def endsWith (s pat : PyStr) : Bool := leadsWith s.reverse pat.reverse

/-- Python whitespace test used by `str.split` (ASCII cases). -/
def isWsChar (c : Char) : Bool := c.isWhitespace

/-- Helper for `pySplit`: accumulates the current token in reverse. -/
def splitWsAux : PyStr → PyStr → List PyStr
  | [], cur => if cur.isEmpty then [] else [cur.reverse]
  | c :: rest, cur =>
    if isWsChar c then
      if cur.isEmpty then splitWsAux rest [] else cur.reverse :: splitWsAux rest []
    else splitWsAux rest (c :: cur)

/-- Python `s.split()`: split on whitespace runs, discarding empty tokens. -/
def pySplit (s : PyStr) : List PyStr := splitWsAux s []

/-- Python `s.split(None, n)`: at most `n` splits; the remainder keeps its
internal spacing, with leading whitespace stripped. -/
def pySplitMax : Nat → PyStr → List PyStr
  | 0, s =>
    let t := s.dropWhile isWsChar
    if t.isEmpty then [] else [t]
  | Nat.succ m, s =>
    let t := s.dropWhile isWsChar
    if t.isEmpty then []
    else (t.takeWhile (fun c => !isWsChar c)) :: pySplitMax m (t.dropWhile (fun c => !isWsChar c))

/-- Python `s.strip(chr(34))`: remove all leading and trailing double quotes. -/
def stripQuotes (s : PyStr) : PyStr :=
  ((s.dropWhile (fun c => c == '"')).reverse.dropWhile (fun c => c == '"')).reverse

/-- Python `os.path.basename` on a path using forward slashes. -/
def pyBasename (s : PyStr) : PyStr := (s.reverse.takeWhile (fun c => c != '/')).reverse

/-- Python `" ".join(parts)`. -/
def joinSpace : List PyStr → PyStr
  | [] => []
  | [x] => x
  | x :: xs => x ++ ' ' :: joinSpace xs

/-- Python `"\n".join(parts)`. -/
def joinNl : List PyStr → PyStr
  | [] => []
  | [x] => x
  | x :: xs => x ++ '\n' :: joinNl xs

/-- Decimal rendering of a process id, as Python string interpolation does. -/
def natStr (n : Nat) : PyStr := (Nat.repr n).data

/-- Python `d.get(k, dflt)` over an association-list model of a `dict`. -/
def dictGet {α : Type} : List (PyStr × α) → PyStr → α → α
  | [], _, dflt => dflt
  | (k, v) :: rest, key, dflt => if k == key then v else dictGet rest key dflt

/-- Character class of the regex `[\d\.]`. -/
def isDigitDot (c : Char) : Bool := c.isDigit || c == '.'

/-- Character class of the regex `\w` (ASCII cases, as used by the data here). -/
def isWordChar (c : Char) : Bool := c.isAlphanum || c == '_'

/-- Consume a literal from the front of `s`, returning the remainder. -/
def dropLit : PyStr → PyStr → Option PyStr
  | s, [] => some s
  | [], _ :: _ => none
  | c :: s, d :: l => if c == d then dropLit s l else none

/-- Attempt the regex `--version(?:=|\s+)([\d\.]+)` anchored at the start of
`s`, returning the captured group.  The two alternatives are mutually
exclusive on their first character, so no further backtracking is needed. -/
def versionEqAt (s : PyStr) : Option PyStr :=
  match dropLit s (pstr "--version") with
  | none => none
  | some r =>
    match r with
    | '=' :: r2 =>
      let g := r2.takeWhile isDigitDot
      if g.isEmpty then none else some g
    | _ =>
      let ws := r.takeWhile isWsChar
      if ws.isEmpty then none
      else
        let g := (r.dropWhile isWsChar).takeWhile isDigitDot
        if g.isEmpty then none else some g

/-- Leftmost search for `--version(?:=|\s+)([\d\.]+)` (first regex of
`extract_version_from_cmdline`). -/
def searchVersionEq : PyStr → Option PyStr
  | [] => none
  | c :: rest =>
    match versionEqAt (c :: rest) with
    | some g => some g
    | none => searchVersionEq rest

/-- Attempt `-v(?:ersion)?\s+([\d\.]+)` anchored at the start of `s` (the
word-boundary assertion is checked by the caller). -/
def vFlagAt (s : PyStr) : Option PyStr :=
  match dropLit s (pstr "-v") with
  | none => none
  | some r =>
    let attempt : PyStr → Option PyStr := fun r2 =>
      let ws := r2.takeWhile isWsChar
      if ws.isEmpty then none
      else
        let g := (r2.dropWhile isWsChar).takeWhile isDigitDot
        if g.isEmpty then none else some g
    match dropLit r (pstr "ersion") with
    | some r2 =>
      match attempt r2 with
      | some g => some g
      | none => attempt r
    | none => attempt r

/-- Leftmost search for `\b-v(?:ersion)?\s+([\d\.]+)` (second regex of
`extract_version_from_cmdline`).  The first argument is the character before
the current position, used for the `\b` assertion. -/
def searchVFlag : Option Char → PyStr → Option PyStr
  | _, [] => none
  | prev, c :: rest =>
    let prevW := match prev with
      | some p => isWordChar p
      | none => false
    let bnd := prevW != isWordChar c
    match (if bnd then vFlagAt (c :: rest) else none) with
    | some g => some g
    | none => searchVFlag (some c) rest

/-- Attempt `[0-9]+\.[0-9]+(?:\.[0-9]+)?` anchored at the start of `s`,
returning the match.  Greedy digit runs need no backtracking because a digit
run is never followed by a digit. -/
def dottedAt (s : PyStr) : Option PyStr :=
  let d1 := s.takeWhile Char.isDigit
  if d1.isEmpty then none
  else
    match s.drop d1.length with
    | '.' :: r2 =>
      let d2 := r2.takeWhile Char.isDigit
      if d2.isEmpty then none
      else
        match r2.drop d2.length with
        | '.' :: r3 =>
          let d3 := r3.takeWhile Char.isDigit
          if d3.isEmpty then some (d1 ++ '.' :: d2)
          else some (d1 ++ '.' :: d2 ++ '.' :: d3)
        | _ => some (d1 ++ '.' :: d2)
    | _ => none

/-- Leftmost search for `v?([0-9]+\.[0-9]+(?:\.[0-9]+)?)`, returning the
captured group (used by `extract_version_from_window` and the executable tail
scan).  At a position holding `v` the optional `v` must be consumed, since the
group itself cannot start with `v`. -/
def searchDotted : PyStr → Option PyStr
  | [] => none
  | c :: rest =>
    match (if c == 'v' then dottedAt rest else dottedAt (c :: rest)) with
    | some g => some g
    | none => searchDotted rest

/-- The `TARGETS` table of `main.py` (insertion order preserved). -/
def TARGETS : List (PyStr × List PyStr) :=
  [ (pstr "Corporate Clash",
      [ pstr "corporateclash.exe",
        pstr "corporateclash_client",
        pstr "corporate-clash-client" ]),
    (pstr "Toontown Rewritten",
      [ pstr "toontownrewritten.exe",
        pstr "toontown rewritten.exe",
        pstr "toontown.exe",
        pstr "toontownrewritten",
        pstr "toontown rewritten",
        pstr "ttr",
        pstr "ttr_client" ]) ]

/-- The `LAUNCHER_NAMES` set of `main.py`. -/
def LAUNCHER_NAMES : List PyStr :=
  [ pstr "launcher", pstr "updater", pstr "patcher", pstr "install", pstr "gamecenter" ]

/-- The `WINE_NAMES` set of `main.py`. -/
def WINE_NAMES : List PyStr :=
  [ pstr "wine", pstr "wine64", pstr "wine-preloader", pstr "wineserver" ]

/-- Fields psutil supplies for one live process. -/
structure ProcInfo where
  pid : Nat
  name : PyStr
  cmdline : List PyStr
  exe : PyStr
  deriving DecidableEq

/-- One row of the process iteration: either readable process info, or one of
the two per-process failures the scan loop catches and skips. -/
inductive ProcEntry where
  | ok (info : ProcInfo)
  | noSuchProcess
  | accessDenied
  deriving DecidableEq

/-- Outcome of invoking the external `wmctrl -l` tool. -/
inductive WmctrlOutcome where
  | missing
  | error
  | ok (lines : List PyStr)
  deriving DecidableEq

/-- Outcome of looking up one path on the filesystem. -/
inductive FileOutcome where
  | missing
  | ioError
  | content (data : PyStr)
  deriving DecidableEq

/-- Filesystem model: association list from path to outcome; absent paths are
missing. -/
abbrev FS := List (PyStr × FileOutcome)

/-- Lookup of a path in the filesystem model. -/
def fsLookup : FS → PyStr → FileOutcome
  | [], _ => FileOutcome.missing
  | (p, o) :: rest, path => if p == path then o else fsLookup rest path

/-- The ambient state a scan observes.  The `time` field records the wall
clock, which only the watch loop of `main` reads, never the scan. -/
structure World where
  procs : List ProcEntry
  wmctrl : WmctrlOutcome
  fs : FS
  time : Nat
  deriving DecidableEq

/-- One entry of a per-target match list (the dict built at
`main.py:212-220`). -/
structure PMatch where
  pid : Nat
  name : PyStr
  cmdline : PyStr
  exe : PyStr
  is_wine : Bool
  match_reason : PyStr
  version : Option PyStr
  deriving DecidableEq

/-- Embeds `run_wmctrl_list` (`main.py:57-65`): the lines of `wmctrl -l`, or
the empty list when the tool is missing (`FileNotFoundError`) or exits with an
error (`CalledProcessError`). -/
def run_wmctrl_list : WmctrlOutcome → List PyStr
  | WmctrlOutcome.missing => []
  | WmctrlOutcome.error => []
  | WmctrlOutcome.ok lines => lines

/-- Embeds `find_windows_for_target` (`main.py:68-83`): titles of windows
whose lowered title avoids every launcher substring and contains the lowered
target name. -/
def find_windows_for_target (wm : WmctrlOutcome) (target : PyStr) : List PyStr :=
  (run_wmctrl_list wm).filterMap (fun line =>
    match pySplitMax 3 line with
    | _ :: _ :: _ :: title :: _ =>
      let low := pyLower title
      if LAUNCHER_NAMES.any (fun x => isSubstr x low) then none
      else if isSubstr (pyLower target) low then some title else none
    | _ => none)

/-- Embeds `extract_version_from_cmdline` (`main.py:86-96`). -/
def extract_version_from_cmdline (cmdline : PyStr) : PyStr :=
  match searchVersionEq cmdline with
  | some g => g
  | none =>
    match searchVFlag none cmdline with
    | some g => g
    | none => []

/-- Embeds `extract_version_from_window` (`main.py:99-103`). -/
def extract_version_from_window (title : PyStr) : PyStr :=
  match searchDotted title with
  | some g => g
  | none => []

/-- The trailing 8 KiB of a file, as read at `main.py:117-122`. -/
def tail8k (d : PyStr) : PyStr := d.drop (d.length - 8192)

/-- Embeds `extract_version_from_exe` (`main.py:106-130`): empty string for an
empty path, a missing file, or any read failure; otherwise the first dotted
numeric token in the trailing 8 KiB. -/
def extract_version_from_exe (fs : FS) (path : PyStr) : PyStr :=
  if path.isEmpty then []
  else
    match fsLookup fs path with
    | FileOutcome.missing => []
    | FileOutcome.ioError => []
    | FileOutcome.content d =>
      match searchDotted (tail8k d) with
      | some g => g
      | none => []

/-- First window title whose extracted version is non-empty (the loop at
`main.py:203-207`). -/
def firstWindowVersion : List PyStr → Option PyStr
  | [] => none
  | w :: rest =>
    let v2 := extract_version_from_window w
    if v2.isEmpty then firstWindowVersion rest else some v2

/-- Python truthiness of an optional string (`if not version`). -/
def pyTruthyOpt : Option PyStr → Bool
  | none => false
  | some s => !s.isEmpty

/-- The version logic of `inspect_processes` (`main.py:194-210`): command-line
flag first, then window titles of the target, then the executable tail scan,
and `None` when nothing matched (the code turns an empty extraction result
into `None`). -/
def computeVersion (wm : WmctrlOutcome) (fs : FS) (target cmdline exe : PyStr) : Option PyStr :=
  let v := extract_version_from_cmdline cmdline
  let version0 : Option PyStr :=
    if !v.isEmpty then some v
    else firstWindowVersion (find_windows_for_target wm target)
  if pyTruthyOpt version0 then version0
  else
    let ve := extract_version_from_exe fs exe
    if !ve.isEmpty then some ve else none

/-- Launcher exclusion test of `main.py:169`: a launcher substring occurs in
the lowered process name or the lowered command line. -/
def procLauncherHit (lname lcmd : PyStr) : Bool :=
  LAUNCHER_NAMES.any (fun x => isSubstr x lname) || LAUNCHER_NAMES.any (fun x => isSubstr x lcmd)

/-- Extraction of the executable argument (`main.py:154-165`): the first
whitespace token of the lowered command line containing `.exe`, with quotes
stripped, backslashes normalised, reduced to its basename and lowered. -/
def extractExeArg (lcmd : PyStr) : Option PyStr :=
  if isSubstr (pstr ".exe") lcmd then
    match (pySplit lcmd).find? (fun part => isSubstr (pstr ".exe") part) with
    | some part =>
      some (pyLower (pyBasename ((stripQuotes part).map (fun c => if c == '\\' then '/' else c))))
    | none => none
  else none

/-- The exact-or-suffix comparison of the executable argument against the
patterns of a target (`main.py:176-182`). -/
def exeArgHit (patterns : List PyStr) (a : PyStr) : Bool :=
  patterns.any (fun p => a == pyLower p || endsWith a (pyLower p))

/-- The combined lowered haystack of `main.py:186`. -/
def haystack (lname lcmd lexec : PyStr) (exeArg : Option PyStr) : PyStr :=
  pyLower (joinSpace [lname, lcmd, lexec, exeArg.getD []])

/-- The substring fallback of `main.py:184-191`: the first pattern occurring
in the haystack, reported as `pattern=<p>`. -/
def fallbackMatch (patterns : List PyStr) (hay : PyStr) : Option PyStr :=
  match patterns.find? (fun p => isSubstr p hay) with
  | some p => some (pstr "pattern=" ++ p)
  | none => none

/-- The per-target matching of `main.py:172-191`: the executable-argument
comparison first, the haystack fallback only when it did not match.  Returns
the match reason when matched. -/
def matchFor (patterns : List PyStr) (lname lcmd lexec : PyStr) (exeArg : Option PyStr) : Option PyStr :=
  let exeRes : Option PyStr :=
    match exeArg with
    | some a => if exeArgHit patterns a then some (pstr "exe_arg=" ++ a) else none
    | none => none
  match exeRes with
  | some r => some r
  | none => fallbackMatch patterns (haystack lname lcmd lexec exeArg)

/-- The contribution of one readable process to one target
(`main.py:141-220`): `none` for launcher processes and non-matches, otherwise
the match record. -/
def procContribution (wm : WmctrlOutcome) (fs : FS) (i : ProcInfo) (target : PyStr)
    (patterns : List PyStr) : Option PMatch :=
  let cmdline := joinSpace i.cmdline
  let lname := pyLower i.name
  let lcmd := pyLower cmdline
  let lexec := pyLower i.exe
  let isWineProc := WINE_NAMES.any (fun n => n == lname) || WINE_NAMES.any (fun n => isSubstr n lcmd)
  let exeArg := extractExeArg lcmd
  if procLauncherHit lname lcmd then none
  else
    match matchFor patterns lname lcmd lexec exeArg with
    | none => none
    | some reason =>
      some
        { pid := i.pid
          name := i.name
          cmdline := cmdline
          exe := i.exe
          is_wine := isWineProc ||
            (match exeArg with
             | some a => endsWith (pyLower a) (pstr ".exe")
             | none => false)
          match_reason := reason
          version := computeVersion wm fs target cmdline i.exe }

/-- Test for a readable process row. -/
def isOkEntry : ProcEntry → Bool
  | ProcEntry.ok _ => true
  | ProcEntry.noSuchProcess => false
  | ProcEntry.accessDenied => false

/-- The contribution of one process-table row: rows whose read raised
`NoSuchProcess` or `AccessDenied` are skipped (`main.py:222-223`). -/
def entryContribution (wm : WmctrlOutcome) (fs : FS) (e : ProcEntry) (target : PyStr)
    (patterns : List PyStr) : Option PMatch :=
  match e with
  | ProcEntry.ok i => procContribution wm fs i target patterns
  | ProcEntry.noSuchProcess => none
  | ProcEntry.accessDenied => none

/-- Embeds `inspect_processes` (`main.py:133-225`): for every target in table
order, the matches contributed by the process table in table order. -/
def inspect_processes (w : World) : List (PyStr × List PMatch) :=
  TARGETS.map (fun tp =>
    (tp.1, w.procs.filterMap (fun e => entryContribution w.wmctrl w.fs e tp.1 tp.2)))

/-- Embeds `get_state` (`main.py:249-264`): per-target compact status
string. -/
def get_state (w : World) (proc_matches : List (PyStr × List PMatch)) : List (PyStr × PyStr) :=
  TARGETS.map (fun tp =>
    let ms := dictGet proc_matches tp.1 []
    if ms.isEmpty then
      (tp.1,
        if (find_windows_for_target w.wmctrl tp.1).isEmpty then pstr "not-running"
        else pstr "running-window-only")
    else
      (tp.1, if ms.any (fun m => !m.is_wine) then pstr "native" else pstr "wine"))

/-- Report lines of one target (`main.py:230-245`). -/
def reportLinesFor (w : World) (proc_matches : List (PyStr × List PMatch)) (target : PyStr) :
    List PyStr :=
  let ms := dictGet proc_matches target []
  let winMatches := find_windows_for_target w.wmctrl target
  if ms.isEmpty && winMatches.isEmpty then
    [target ++ pstr ": not running"]
  else
    (target ++ pstr ": RUNNING")
      :: (ms.map (fun m =>
            let typ := if m.is_wine then pstr "Wine" else pstr "Native"
            let verS :=
              match m.version with
              | some v => if v.isEmpty then [] else pstr " version=" ++ v
              | none => []
            pstr " - PID " ++ natStr m.pid ++ pstr " (" ++ typ ++ pstr ") - name=" ++ m.name
              ++ pstr " cmdline=" ++ m.cmdline ++ verS)
          ++ winMatches.map (fun t => pstr " - Window: " ++ t))

/-- Embeds `format_report` (`main.py:228-246`). -/
def format_report (w : World) (proc_matches : List (PyStr × List PMatch)) : PyStr :=
  joinNl (TARGETS.flatMap (fun tp => reportLinesFor w proc_matches tp.1))

/-- A JSON-like value, modelling the Python objects handed to `json.dumps`
and returned by the API layer. -/
inductive JVal where
  | jnull
  | jbool (b : Bool)
  | jnum (n : Nat)
  | jstr (s : PyStr)
  | jarr (xs : List JVal)
  | jobj (fields : List (PyStr × JVal))

/-- Key list of a JSON object (empty for non-objects). -/
def jkeys : JVal → List PyStr
  | JVal.jobj fields => fields.map Prod.fst
  | _ => []

/-- One match record as a JSON object, field for field. -/
def matchToJson (m : PMatch) : JVal :=
  JVal.jobj
    [ (pstr "pid", JVal.jnum m.pid),
      (pstr "name", JVal.jstr m.name),
      (pstr "cmdline", JVal.jstr m.cmdline),
      (pstr "exe", JVal.jstr m.exe),
      (pstr "is_wine", JVal.jbool m.is_wine),
      (pstr "match_reason", JVal.jstr m.match_reason),
      (pstr "version", match m.version with
        | some v => JVal.jstr v
        | none => JVal.jnull) ]

/-- The per-target match lists as a JSON object. -/
def procsToJson (procs : List (PyStr × List PMatch)) : JVal :=
  JVal.jobj (procs.map (fun tp => (tp.1, JVal.jarr (tp.2.map matchToJson))))

/-- The state mapping as a JSON object. -/
def stateToJson (st : List (PyStr × PyStr)) : JVal :=
  JVal.jobj (st.map (fun ts => (ts.1, JVal.jstr ts.2)))

/-- The object printed by `main` under `--status --json` (`main.py:283-287`). -/
def statusOutObj (w : World) : JVal :=
  let procs := inspect_processes w
  JVal.jobj
    [ (pstr "targets", procsToJson procs),
      (pstr "state", stateToJson (get_state w procs)),
      (pstr "report", JVal.jstr (format_report w procs)) ]

/-- Embeds `status_dict` of `src/api/process_inspector.py:20-22`: one scan,
packaged with its derived state and report. -/
def status_dict (w : World) : JVal :=
  let procs := inspect_processes w
  JVal.jobj
    [ (pstr "targets", procsToJson procs),
      (pstr "state", stateToJson (get_state w procs)),
      (pstr "report", JVal.jstr (format_report w procs)) ]

/-- Embeds `target_matches` of `src/api/process_inspector.py:24-25`. -/
def target_matches (w : World) (name : PyStr) : List PMatch :=
  dictGet (inspect_processes w) name []

/-- Parsed command-line flags of `main` (the polling interval only matters to
the watch loop, which is out of scope below). -/
structure Args where
  watch : Bool
  status : Bool
  json : Bool
  deriving DecidableEq

/-- One observable output action of `main`. -/
inductive OutAction where
  | helpText
  | printText (s : PyStr)
  | printJson (v : JVal)

/-- The non-watch behaviour of `main` (`main.py:276-292`): help when no mode
flag is given, one JSON object under `--status --json`, one report under
`--status`.  The watch loop runs unboundedly and is not modelled; no claim
concerns it. -/
def mainRun (a : Args) (w : World) : List OutAction :=
  if !a.watch && !a.status then [OutAction.helpText]
  else if a.status then
    if a.json then [OutAction.printJson (statusOutObj w)]
    else [OutAction.printText (format_report w (inspect_processes w))]
  else []

/-- Modelled from the spec: the claim about the `is_wine` flag conditions the
executable-argument criterion on running on a non-native (non-Windows) host.
The host OS is not part of the program state anywhere in `main.py`, so it
appears here as an explicit `nonWindowsOS` parameter; the other two criteria
follow `main.py:152`. -/
def is_wine_spec (nonWindowsOS : Bool) (lname lcmd : PyStr) : Bool :=
  WINE_NAMES.any (fun n => n == lname) ||
  WINE_NAMES.any (fun n => isSubstr n lcmd) ||
  ((match extractExeArg lcmd with
    | some a => endsWith (pyLower a) (pstr ".exe")
    | none => false) && nonWindowsOS)

/-- The pattern list of the Corporate Clash target. -/
def ccPatterns : List PyStr := dictGet TARGETS (pstr "Corporate Clash") []

/-- The pattern list of the Toontown Rewritten target. -/
def ttrPatterns : List PyStr := dictGet TARGETS (pstr "Toontown Rewritten") []

/-- A world with no processes, no wmctrl tool and an empty filesystem. -/
def emptyWorld : World := ⟨[], WmctrlOutcome.missing, [], 0⟩

/-- The process of the end-to-end fallback scenario: a Wine host whose command
line carries `C:\Games\ttr\TTREngine.exe`. -/
def iTtrEngine : ProcInfo :=
  ⟨7, pstr "wine",
    [pstr "\"/usr/bin/wine\"", pstr "\"C:\\Games\\ttr\\TTREngine.exe\"", pstr "-someflag"], []⟩

/-- A world whose process table holds exactly the fallback-scenario process. -/
def wTtrEngine : World := ⟨[ProcEntry.ok iTtrEngine], WmctrlOutcome.missing, [], 0⟩

/-- A process whose command line is exactly a listed Corporate Clash pattern
ending in `.exe`. -/
def iClashExe : ProcInfo := ⟨3, pstr "game", [pstr "corporateclash.exe"], []⟩

/-- A Wine host process carrying a Toontown executable argument. -/
def iWineToontown : ProcInfo := ⟨1, pstr "wine", [pstr "C:/games/toontown.exe"], []⟩

/-- The match record `iWineToontown` produces against Toontown Rewritten in
`emptyWorld` surroundings. -/
def mWineToontown : PMatch :=
  ⟨1, pstr "wine", pstr "C:/games/toontown.exe", [], true, pstr "exe_arg=toontown.exe", none⟩

/-- A non-Wine-named process carrying a Toontown executable argument: its name
is no compatibility-layer host name and its command line references none. -/
def iPlainToontown : ProcInfo := ⟨2, pstr "game", [pstr "C:/ttr/toontown.exe"], []⟩

/-- A match record flagged as running under the compatibility layer. -/
def mWineOnly : PMatch := ⟨9, pstr "x", pstr "y", [], true, pstr "r", none⟩

/-- A launcher process mentioning a target pattern. -/
def iLauncher : ProcInfo := ⟨4, pstr "ttr-launcher", [pstr "ttr"], []⟩

theorem leadsWith_iff (s pat : PyStr) : leadsWith s pat = true ↔ ∃ r, s = pat ++ r := by
  induction pat generalizing s with
  | nil => simp [leadsWith]
  | cons d p ih =>
    cases s with
    | nil => simp [leadsWith]
    | cons c t =>
      simp only [leadsWith, Bool.and_eq_true, beq_iff_eq, ih, List.cons_append,
        List.cons.injEq]
      constructor
      · rintro ⟨hcd, r, hts⟩
        exact ⟨r, hcd, hts⟩
      · rintro ⟨r, hcd, hts⟩
        exact ⟨hcd, r, hts⟩

theorem isSubstr_iff (pat s : PyStr) : isSubstr pat s = true ↔ ∃ a r, s = a ++ pat ++ r := by
  induction s with
  | nil =>
    simp only [isSubstr, List.isEmpty_iff]
    constructor
    · rintro rfl
      exact ⟨[], [], rfl⟩
    · rintro ⟨a, r, h⟩
      rcases List.append_eq_nil.mp h.symm with ⟨h1, h2⟩
      rcases List.append_eq_nil.mp h1 with ⟨_, h3⟩
      exact h3
  | cons c t ih =>
    simp only [isSubstr, Bool.or_eq_true, leadsWith_iff, ih]
    constructor
    · rintro (⟨r, hr⟩ | ⟨a, r, hr⟩)
      · exact ⟨[], r, by simpa using hr⟩
      · exact ⟨c :: a, r, by simp [hr]⟩
    · rintro ⟨a, r, hr⟩
      cases a with
      | nil => exact Or.inl ⟨r, by simpa using hr⟩
      | cons x a =>
        rcases List.cons.injEq .. ▸ hr with ⟨_, hta⟩
        exact Or.inr ⟨a, r, by simpa using hta⟩

theorem isSubstr_pyLower (pat s : PyStr) (h : isSubstr pat s = true) :
    isSubstr (pyLower pat) (pyLower s) = true := by
  rcases (isSubstr_iff pat s).mp h with ⟨a, r, rfl⟩
  exact (isSubstr_iff _ _).mpr ⟨pyLower a, pyLower r, by simp [pyLower]⟩

theorem launcher_names_lower_fix : ∀ x ∈ LAUNCHER_NAMES, pyLower x = x := by decide

theorem firstWindowVersion_ne_empty :
    ∀ (l : List PyStr) (v : PyStr), firstWindowVersion l = some v → v.isEmpty = false := by
  intro l
  induction l with
  | nil => intro v h; simp [firstWindowVersion] at h
  | cons w rest ih =>
    intro v h
    by_cases he : (extract_version_from_window w).isEmpty
    · rw [firstWindowVersion, if_pos he] at h
      exact ih v h
    · rw [firstWindowVersion, if_neg he] at h
      cases h
      exact Bool.not_eq_true _ ▸ he

theorem procContribution_launcher_none (wm : WmctrlOutcome) (fs : FS) (i : ProcInfo)
    (target : PyStr) (patterns : List PyStr)
    (h : procLauncherHit (pyLower i.name) (pyLower (joinSpace i.cmdline)) = true) :
    procContribution wm fs i target patterns = none := by
  simp [procContribution, h]

theorem filterMap_skips_bad (g : ProcEntry → Option PMatch)
    (hg : ∀ e, isOkEntry e = false → g e = none) :
    ∀ ps : List ProcEntry, (ps.filter isOkEntry).filterMap g = ps.filterMap g := by
  intro ps
  induction ps with
  | nil => rfl
  | cons e t ih =>
    cases he : isOkEntry e with
    | true => simp [List.filter_cons, he, List.filterMap_cons, ih]
    | false => simp [List.filter_cons, he, List.filterMap_cons, hg e he, ih]

/-- Claim C2: a process whose name or command line contains any launcher-name
substring is never included in any target's match list by the process scan:
inserting such a process anywhere in the process table leaves every target's
match list unchanged. -/
theorem launcher_excluded_all_targets (ps1 ps2 : List ProcEntry) (wm : WmctrlOutcome)
    (fs : FS) (tm : Nat) (i : ProcInfo)
    (h : ∃ x ∈ LAUNCHER_NAMES, isSubstr x i.name = true ∨ isSubstr x (joinSpace i.cmdline) = true) :
    inspect_processes ⟨ps1 ++ ProcEntry.ok i :: ps2, wm, fs, tm⟩ =
      inspect_processes ⟨ps1 ++ ps2, wm, fs, tm⟩ := by
  have hhit : procLauncherHit (pyLower i.name) (pyLower (joinSpace i.cmdline)) = true := by
    obtain ⟨x, hx, hcase⟩ := h
    have hfix : pyLower x = x := launcher_names_lower_fix x hx
    rcases hcase with hname | hcmd
    · have hlow := isSubstr_pyLower x i.name hname
      rw [hfix] at hlow
      simp only [procLauncherHit, Bool.or_eq_true, List.any_eq_true]
      exact Or.inl ⟨x, hx, hlow⟩
    · have hlow := isSubstr_pyLower x (joinSpace i.cmdline) hcmd
      rw [hfix] at hlow
      simp only [procLauncherHit, Bool.or_eq_true, List.any_eq_true]
      exact Or.inr ⟨x, hx, hlow⟩
  have hc : ∀ t pats, entryContribution wm fs (ProcEntry.ok i) t pats = none := by
    intro t pats
    simpa [entryContribution] using procContribution_launcher_none wm fs i t pats hhit
  simp only [inspect_processes]
  apply List.map_congr_left
  intro tp _
  simp [List.filterMap_append, List.filterMap_cons, hc]

/-- Claim C2 witness at a concrete launcher process. -/
theorem launcher_excluded_all_targets_witness :
    inspect_processes ⟨[] ++ ProcEntry.ok iLauncher :: [], WmctrlOutcome.missing, [], 0⟩ =
      inspect_processes ⟨[] ++ [], WmctrlOutcome.missing, [], 0⟩ :=
  launcher_excluded_all_targets [] [] WmctrlOutcome.missing [] 0 iLauncher
    ⟨pstr "launcher", by decide, Or.inl (by decide)⟩

/-- Claim C7: failures of the external world degrade to missing information
instead of propagating: a missing or failing `wmctrl` yields the empty window
list; process-table rows that raised `NoSuchProcess` or `AccessDenied` are
skipped, leaving the scan result equal to the scan of the readable rows; an
empty path, a missing file, or an I/O failure during the executable tail scan
yields the empty version string. -/
theorem degrade_no_raise (ps : List ProcEntry) (wm : WmctrlOutcome) (fs fsRest : FS)
    (tm : Nat) (lines : List PyStr) (path : PyStr) :
    run_wmctrl_list WmctrlOutcome.missing = [] ∧
    run_wmctrl_list WmctrlOutcome.error = [] ∧
    run_wmctrl_list (WmctrlOutcome.ok lines) = lines ∧
    inspect_processes ⟨ps, wm, fs, tm⟩ = inspect_processes ⟨ps.filter isOkEntry, wm, fs, tm⟩ ∧
    extract_version_from_exe fs [] = [] ∧
    extract_version_from_exe ((path, FileOutcome.missing) :: fsRest) path = [] ∧
    extract_version_from_exe ((path, FileOutcome.ioError) :: fsRest) path = [] := by
  refine ⟨rfl, rfl, rfl, ?_, rfl, ?_, ?_⟩
  · simp only [inspect_processes]
    apply List.map_congr_left
    intro tp _
    have hg : ∀ e, isOkEntry e = false →
        entryContribution wm fs e tp.1 tp.2 = none := by
      intro e he
      cases e with
      | ok j => exact absurd he (by simp [isOkEntry])
      | noSuchProcess => rfl
      | accessDenied => rfl
    rw [filterMap_skips_bad _ hg]
  · by_cases hp : path.isEmpty
    · simp [extract_version_from_exe, hp]
    · simp [extract_version_from_exe, hp, fsLookup]
  · by_cases hp : path.isEmpty
    · simp [extract_version_from_exe, hp]
    · simp [extract_version_from_exe, hp, fsLookup]

/-- Claim C7 witness at concrete failing externals. -/
theorem degrade_no_raise_witness :
    run_wmctrl_list WmctrlOutcome.missing = [] ∧
    inspect_processes ⟨[ProcEntry.noSuchProcess, ProcEntry.accessDenied], WmctrlOutcome.missing, [], 0⟩ =
      inspect_processes
        ⟨[ProcEntry.noSuchProcess, ProcEntry.accessDenied].filter isOkEntry,
          WmctrlOutcome.missing, [], 0⟩ ∧
    extract_version_from_exe [(pstr "/bin/game", FileOutcome.ioError)] (pstr "/bin/game") = [] := by
  have h := degrade_no_raise [ProcEntry.noSuchProcess, ProcEntry.accessDenied]
    WmctrlOutcome.missing [] [] 0 [] (pstr "/bin/game")
  exact ⟨h.1, h.2.2.2.1, h.2.2.2.2.2.2⟩

/-- Claim C8: the scan and the derived state are a deterministic function of
the observed process table, window list and filesystem; the wall clock does
not enter.  Two scans over unchanged observations yield identical match lists
and identical states. -/
theorem scan_deterministic (w w' : World) (hp : w.procs = w'.procs)
    (hw : w.wmctrl = w'.wmctrl) (hf : w.fs = w'.fs) :
    inspect_processes w = inspect_processes w' ∧
    get_state w (inspect_processes w) = get_state w' (inspect_processes w') := by
  obtain ⟨p, wm, fs, t⟩ := w
  obtain ⟨p', wm', fs', t'⟩ := w'
  cases hp
  cases hw
  cases hf
  exact ⟨rfl, rfl⟩

/-- Claim C8 witness: two worlds equal except for the clock. -/
theorem scan_deterministic_witness :
    inspect_processes ⟨[], WmctrlOutcome.missing, [], 0⟩ =
      inspect_processes ⟨[], WmctrlOutcome.missing, [], 1⟩ ∧
    get_state ⟨[], WmctrlOutcome.missing, [], 0⟩
        (inspect_processes ⟨[], WmctrlOutcome.missing, [], 0⟩) =
      get_state ⟨[], WmctrlOutcome.missing, [], 1⟩
        (inspect_processes ⟨[], WmctrlOutcome.missing, [], 1⟩) :=
  scan_deterministic ⟨[], WmctrlOutcome.missing, [], 0⟩ ⟨[], WmctrlOutcome.missing, [], 1⟩
    rfl rfl rfl

theorem ite_pair {α β : Type} (c : Prop) [Decidable c] (t : α) (a b : β) :
    (if c then (t, a) else (t, b)) = (t, if c then a else b) := by
  split <;> rfl

theorem dictGet_get_state (w : World) (pm : List (PyStr × List PMatch)) (t : PyStr)
    (ht : t ∈ TARGETS.map Prod.fst) :
    dictGet (get_state w pm) t [] =
      (if (dictGet pm t []).isEmpty then
        (if (find_windows_for_target w.wmctrl t).isEmpty then pstr "not-running"
         else pstr "running-window-only")
       else if (dictGet pm t []).any (fun m => !m.is_wine) then pstr "native"
       else pstr "wine") := by
  have hne : (pstr "Corporate Clash" == pstr "Toontown Rewritten") = false := by decide
  simp only [TARGETS, List.map_cons, List.map_nil, List.mem_cons, List.not_mem_nil,
    or_false] at ht
  rcases ht with rfl | rfl
  · simp only [get_state, TARGETS, List.map_cons, List.map_nil, ite_pair]
    simp [dictGet]
  · simp only [get_state, TARGETS, List.map_cons, List.map_nil, ite_pair]
    simp [dictGet, hne]

/-- Claim C1 (amended): a target's derived state is `not-running` with no
process and no window matches, `running-window-only` with no process matches
but a window match, `native` when some match is not under the compatibility
layer, and `wine` (not `compat-layer`) when matches exist and all are under
it. -/
theorem get_state_cases (w : World) (pm : List (PyStr × List PMatch)) (t : PyStr)
    (ht : t ∈ TARGETS.map Prod.fst) :
    (dictGet pm t [] = [] → find_windows_for_target w.wmctrl t = [] →
      dictGet (get_state w pm) t [] = pstr "not-running") ∧
    (dictGet pm t [] = [] → find_windows_for_target w.wmctrl t ≠ [] →
      dictGet (get_state w pm) t [] = pstr "running-window-only") ∧
    ((∃ m ∈ dictGet pm t [], m.is_wine = false) →
      dictGet (get_state w pm) t [] = pstr "native") ∧
    (dictGet pm t [] ≠ [] → (∀ m ∈ dictGet pm t [], m.is_wine = true) →
      dictGet (get_state w pm) t [] = pstr "wine") := by
  rw [dictGet_get_state w pm t ht]
  refine ⟨?_, ?_, ?_, ?_⟩
  · intro h1 h2
    simp [h1, h2]
  · intro h1 h2
    simp [h1, h2]
  · rintro ⟨m, hm, hw⟩
    have hne : dictGet pm t [] ≠ [] := by
      intro hnil
      rw [hnil] at hm
      exact List.not_mem_nil m hm
    have hany : (dictGet pm t []).any (fun m => !m.is_wine) = true := by
      simp only [List.any_eq_true]
      exact ⟨m, hm, by simp [hw]⟩
    simp [List.isEmpty_iff, hne, hany]
  · intro h1 h2
    have hany : (dictGet pm t []).any (fun m => !m.is_wine) = false := by
      simp only [List.any_eq_false]
      intro m hm
      simp [h2 m hm]
    simp [List.isEmpty_iff, h1, hany]

/-- Claim C1 counterexample: with one match that is under the compatibility
layer, the derived state string is `wine`, not `compat-layer`. -/
theorem get_state_compat_label_cex :
    dictGet [(pstr "Toontown Rewritten", [mWineOnly])] (pstr "Toontown Rewritten")
        ([] : List PMatch) ≠ [] ∧
    (∀ m ∈ dictGet [(pstr "Toontown Rewritten", [mWineOnly])] (pstr "Toontown Rewritten")
        ([] : List PMatch), m.is_wine = true) ∧
    dictGet (get_state emptyWorld [(pstr "Toontown Rewritten", [mWineOnly])])
        (pstr "Toontown Rewritten") [] = pstr "wine" ∧
    dictGet (get_state emptyWorld [(pstr "Toontown Rewritten", [mWineOnly])])
        (pstr "Toontown Rewritten") [] ≠ pstr "compat-layer" := by
  decide

/-- Claim C1 witness: the `not-running` case at concrete inputs. -/
theorem get_state_cases_witness :
    dictGet (get_state emptyWorld []) (pstr "Toontown Rewritten") [] = pstr "not-running" :=
  (get_state_cases emptyWorld [] (pstr "Toontown Rewritten") (by decide)).1 rfl (by decide)

/-- Claim C3: for a non-launcher process whose command line yields an
extracted lowercased executable basename that equals, or ends with, one of a
target's patterns, the matcher reports a match whose reason is
`exe_arg=<basename>`; and the haystack fallback is consulted exactly when the
executable-argument comparison did not match. -/
theorem exe_arg_priority (wm : WmctrlOutcome) (fs : FS) (i : ProcInfo) (target : PyStr)
    (patterns : List PyStr) (a : PyStr)
    (hl : procLauncherHit (pyLower i.name) (pyLower (joinSpace i.cmdline)) = false)
    (ha : extractExeArg (pyLower (joinSpace i.cmdline)) = some a) :
    (exeArgHit patterns a = true →
      ∃ m, procContribution wm fs i target patterns = some m ∧
        m.match_reason = pstr "exe_arg=" ++ a) ∧
    (exeArgHit patterns a = false →
      matchFor patterns (pyLower i.name) (pyLower (joinSpace i.cmdline)) (pyLower i.exe)
          (some a) =
        fallbackMatch patterns
          (haystack (pyLower i.name) (pyLower (joinSpace i.cmdline)) (pyLower i.exe)
            (some a))) := by
  constructor
  · intro hhit
    simp only [procContribution, hl, Bool.false_eq_true, if_false, ha, matchFor, hhit,
      if_true]
    exact ⟨_, rfl, rfl⟩
  · intro hmiss
    simp [matchFor, hmiss]

/-- Claim C3 witness: a command line that is exactly a Corporate Clash pattern
ending in `.exe`. -/
theorem exe_arg_priority_witness :
    ∃ m, procContribution WmctrlOutcome.missing [] iClashExe (pstr "Corporate Clash")
        ccPatterns = some m ∧
      m.match_reason = pstr "exe_arg=" ++ pstr "corporateclash.exe" :=
  (exe_arg_priority WmctrlOutcome.missing [] iClashExe (pstr "Corporate Clash") ccPatterns
    (pstr "corporateclash.exe") (by decide) (by decide)).1 (by decide)

/-- Claim C4: on the command line carrying `C:\Games\ttr\TTREngine.exe` under
Wine, the extracted executable argument is `ttrengine.exe`, which matches no
Toontown Rewritten pattern exactly or by suffix; the process still matches
through the substring fallback because `ttr` occurs in the combined haystack,
and the reported reason is `pattern=ttr`. -/
theorem ttr_fallback_scenario :
    extractExeArg (pyLower (joinSpace iTtrEngine.cmdline)) = some (pstr "ttrengine.exe") ∧
    exeArgHit ttrPatterns (pstr "ttrengine.exe") = false ∧
    isSubstr (pstr "ttr")
      (haystack (pyLower iTtrEngine.name) (pyLower (joinSpace iTtrEngine.cmdline))
        (pyLower iTtrEngine.exe) (some (pstr "ttrengine.exe"))) = true ∧
    (dictGet (inspect_processes wTtrEngine) (pstr "Toontown Rewritten") []).map
        (fun m => m.match_reason) = [pstr "pattern=ttr"] ∧
    (dictGet (inspect_processes wTtrEngine) (pstr "Corporate Clash") []) = [] := by
  decide

/-- Claim C5 (amended): the version field is the first non-empty result of
the three strategies in strict priority order — command-line flag parse, then
window-title parse, then executable-tail scan — and when all three fail the
stored version is `None` (the code converts the empty extraction result to
`None`), not the empty string. -/
theorem version_priority_amended (wm : WmctrlOutcome) (fs : FS) (target cmdline exe : PyStr) :
    computeVersion wm fs target cmdline exe =
      (if (extract_version_from_cmdline cmdline).isEmpty = false then
        some (extract_version_from_cmdline cmdline)
       else if ((firstWindowVersion (find_windows_for_target wm target)).getD []).isEmpty
           = false then
        some ((firstWindowVersion (find_windows_for_target wm target)).getD [])
       else if (extract_version_from_exe fs exe).isEmpty = false then
        some (extract_version_from_exe fs exe)
       else none) := by
  simp only [computeVersion]
  cases hv1 : (extract_version_from_cmdline cmdline).isEmpty
  · simp [hv1, pyTruthyOpt]
  · cases hw : firstWindowVersion (find_windows_for_target wm target) with
    | some v2 =>
      have hne := firstWindowVersion_ne_empty _ _ hw
      simp [hv1, hw, pyTruthyOpt, hne]
    | none =>
      simp only [hv1, Bool.not_true, Bool.false_eq_true, if_false, hw, pyTruthyOpt,
        Option.getD_none, List.isEmpty_nil]
      cases hv3 : (extract_version_from_exe fs exe).isEmpty <;> simp [hv3]

/-- Claim C5 counterexample: at an input where all three strategies return the
empty string, the stored version is `None`, not the empty string. -/
theorem version_all_fail_cex :
    extract_version_from_cmdline (pstr "hello") = pstr "" ∧
    (firstWindowVersion
        (find_windows_for_target WmctrlOutcome.missing (pstr "Toontown Rewritten"))).getD []
      = pstr "" ∧
    extract_version_from_exe [] [] = pstr "" ∧
    computeVersion WmctrlOutcome.missing [] (pstr "Toontown Rewritten") (pstr "hello") []
      = none ∧
    computeVersion WmctrlOutcome.missing [] (pstr "Toontown Rewritten") (pstr "hello") []
      ≠ some (pstr "") := by
  decide

/-- Claim C6 (amended): the `is_wine` flag of a produced match record is true
exactly when the lowered process name is a known compatibility-layer host
name, or the lowered command line references one, or the extracted executable
argument ends in `.exe` — unconditionally, with no dependence on the host
operating system. -/
theorem is_wine_characterization (wm : WmctrlOutcome) (fs : FS) (i : ProcInfo) (target : PyStr)
    (patterns : List PyStr) (m : PMatch)
    (h : procContribution wm fs i target patterns = some m) :
    m.is_wine = true ↔
      (∃ n ∈ WINE_NAMES, n = pyLower i.name) ∨
      (∃ n ∈ WINE_NAMES, isSubstr n (pyLower (joinSpace i.cmdline)) = true) ∨
      (∃ a, extractExeArg (pyLower (joinSpace i.cmdline)) = some a ∧
        endsWith (pyLower a) (pstr ".exe") = true) := by
  simp only [procContribution] at h
  cases hlh : procLauncherHit (pyLower i.name) (pyLower (joinSpace i.cmdline)) with
  | true =>
    rw [hlh] at h
    simp at h
  | false =>
    rw [hlh] at h
    simp only [Bool.false_eq_true, if_false] at h
    cases hm : matchFor patterns (pyLower i.name) (pyLower (joinSpace i.cmdline))
        (pyLower i.exe) (extractExeArg (pyLower (joinSpace i.cmdline))) with
    | none =>
      rw [hm] at h
      simp at h
    | some reason =>
      rw [hm] at h
      simp only [Option.some.injEq] at h
      rw [← h]
      cases hE : extractExeArg (pyLower (joinSpace i.cmdline)) with
      | none =>
        simp [hE, List.any_eq_true, or_assoc]
      | some a =>
        simp [hE, List.any_eq_true, or_assoc]

/-- Claim C6 witness: a Wine-named process carrying a Toontown executable
argument. -/
theorem is_wine_characterization_witness :
    mWineToontown.is_wine = true ↔
      (∃ n ∈ WINE_NAMES, n = pyLower iWineToontown.name) ∨
      (∃ n ∈ WINE_NAMES, isSubstr n (pyLower (joinSpace iWineToontown.cmdline)) = true) ∨
      (∃ a, extractExeArg (pyLower (joinSpace iWineToontown.cmdline)) = some a ∧
        endsWith (pyLower a) (pstr ".exe") = true) :=
  is_wine_characterization WmctrlOutcome.missing [] iWineToontown
    (pstr "Toontown Rewritten") ttrPatterns mWineToontown (by decide)

/-- Claim C6 counterexample: a process that is no compatibility-layer host and
references none on its command line, yet carries a `.exe` executable argument,
is flagged `is_wine = true` by the code; under the claim, on a Windows host
(`nonWindowsOS = false`) the flag would be false.  The code checks no OS
condition. -/
theorem is_wine_os_condition_cex :
    (procContribution WmctrlOutcome.missing [] iPlainToontown (pstr "Toontown Rewritten")
        ttrPatterns).map (fun m => m.is_wine) = some true ∧
    is_wine_spec false (pyLower iPlainToontown.name)
      (pyLower (joinSpace iPlainToontown.cmdline)) = false := by
  decide

/-- Claim C9: under `--status --json` the program prints exactly one JSON
object, its keys are `targets`, `state` and `report`, and the API operation
`status_dict` returns the same three-key object. -/
theorem status_json_shape (w : World) :
    mainRun ⟨false, true, true⟩ w = [OutAction.printJson (statusOutObj w)] ∧
    jkeys (statusOutObj w) = [pstr "targets", pstr "state", pstr "report"] ∧
    status_dict w = statusOutObj w :=
  ⟨rfl, rfl, rfl⟩

/-- Claim C10: the scan result and the derived state mapping both have exactly
the key list `Corporate Clash`, `Toontown Rewritten` — the state mapping for
every input mapping, with missing or extraneous keys alike — and querying the
matches of a non-target name returns the empty list. -/
theorem target_key_set (w : World) (pm : List (PyStr × List PMatch)) (name : PyStr)
    (h : name ∉ TARGETS.map Prod.fst) :
    (inspect_processes w).map Prod.fst =
      [pstr "Corporate Clash", pstr "Toontown Rewritten"] ∧
    (get_state w pm).map Prod.fst =
      [pstr "Corporate Clash", pstr "Toontown Rewritten"] ∧
    target_matches w name = [] := by
  simp only [TARGETS, List.map_cons, List.map_nil, List.mem_cons, List.not_mem_nil,
    or_false, not_or] at h
  obtain ⟨h1, h2⟩ := h
  have e1 : (pstr "Corporate Clash" == name) = false := by
    simp only [beq_eq_false_iff_ne, ne_eq]
    exact fun hh => h1 hh.symm
  have e2 : (pstr "Toontown Rewritten" == name) = false := by
    simp only [beq_eq_false_iff_ne, ne_eq]
    exact fun hh => h2 hh.symm
  refine ⟨?_, ?_, ?_⟩
  · rfl
  · simp [get_state, TARGETS, ite_pair]
  · simp [target_matches, inspect_processes, TARGETS, dictGet, e1, e2]

/-- Claim C10 witness: querying a non-target name on the empty world. -/
theorem target_key_set_witness :
    (inspect_processes emptyWorld).map Prod.fst =
      [pstr "Corporate Clash", pstr "Toontown Rewritten"] ∧
    (get_state emptyWorld [(pstr "Extraneous", [])]).map Prod.fst =
      [pstr "Corporate Clash", pstr "Toontown Rewritten"] ∧
    target_matches emptyWorld (pstr "Fortnite") = [] :=
  target_key_set emptyWorld [(pstr "Extraneous", [])] (pstr "Fortnite") (by decide)

end Tweeks
